import Mathlib

/-!
Verification of the acquisition writer layer of pymmcore-gui
(src/pymmcore_gui/writers/): TiffSequenceWriterMM, OMEZarrWriterMM and
TensorStoreWriterMM, shallowly embedded in Lean.

Python dicts are modelled as insertion-ordered association lists
(List (String × _)); dict assignment is setKey (replace-in-place or
append), dict.pop is popKeyA (drop the entry), dict iteration follows
list order.  Definitions carry the source file and line numbers they
embed; parts of the external pymmcore-plus base classes that the
overridden methods rely on but that are absent from src/ are marked
"Modelled from the spec:".
-/

/-! ## Definitions -/

/-- Python dict assignment d[k] = v on an insertion-ordered association
list: replace the entry in place if the key is present, else append. -/
def setKey {α : Type} (k : String) (v : α) : List (String × α) → List (String × α)
  | [] => [(k, v)]
  | p :: rest => if p.1 == k then (k, v) :: rest else p :: setKey k v rest

/-- Python dict.pop(k, None): drop the entry for key k, keep the rest. -/
def popKeyA {α : Type} (k : String) (d : List (String × α)) : List (String × α) :=
  d.filter (fun p => p.1 != k)

/-- Python dict merge (update): apply every assignment of the second dict
to the first, in order. -/
def dictUpdate {α : Type} (d upd : List (String × α)) : List (String × α) :=
  upd.foldl (fun acc p => setKey p.1 p.2 acc) d

/-- A metadata value inside the user-metadata mapping of a sequence.  The
handler constructor stands for the live writer back-reference stored under
the "mm_handler" key, which is not JSON-serializable. -/
inductive MetaVal where
  | str : String → MetaVal
  | num : Int → MetaVal
  | handler : Nat → MetaVal
  deriving DecidableEq

/-- useq.MDASequence: ordered axis list, per-axis sizes, and the arbitrary
user metadata mapping (which by convention may hold the "mm_handler" slot). -/
structure MDASequence where
  axes : List String
  sizes : List (String × Nat)
  metadata : List (String × MetaVal)
  deriving DecidableEq

/-- useq.MDAEvent: the multi-axis index, the optional position name, and
the optional back-reference to the parent sequence. -/
structure MDAEvent where
  index : List (String × Nat)
  pos_name : Option String
  sequence : Option MDASequence
  deriving DecidableEq

/-- FrameMetaV1: the per-frame metadata record (a dict).  The "mda_event"
slot holds the originating event; the remaining fields (timestamp,
exposure, ...) are kept opaque in extra. -/
structure FrameMeta where
  mda_event : Option MDAEvent
  extra : List (String × MetaVal)
  deriving DecidableEq

/-- The sequence-sanitization block shared by all three writers
(_tiff_sequence.py lines 116-118, _ome_zarr.py lines 118-120,
_tensorstore_zarr.py lines 104-106):
seq_meta = dict(seq.metadata); seq_meta.pop("mm_handler", None);
seq.model_copy(update=metadata=seq_meta).  model_copy builds a new
sequence object; the input sequence is not mutated. -/
def popMMHandlerSeq (seq : MDASequence) : MDASequence :=
  { seq with metadata := popKeyA "mm_handler" seq.metadata }

/-- The frame-metadata sanitization block shared by the writers
(_tiff_sequence.py lines 147-154, _ome_zarr.py lines 134-143,
_tensorstore_zarr.py lines 101-108): when the record has an "mda_event"
whose sequence is present, replace the record's "mda_event" entry with a
copy of the event whose sequence metadata has "mm_handler" popped.  The
tiff writer guards with "is not None", the zarr/tensorstore writers with
truthiness; for these pydantic objects the two coincide.  The result is
the value the record dict holds after the in-place assignment
meta["mda_event"] = ev_clean. -/
def sanitizeFrameMeta (meta : FrameMeta) : FrameMeta :=
  match meta.mda_event with
  | some ev =>
      match ev.sequence with
      | some sq =>
          let new_ev_seq := popMMHandlerSeq sq
          let ev_clean : MDAEvent := { ev with sequence := some new_ev_seq }
          { meta with mda_event := some ev_clean }
      | none => meta
  | none => meta

/-- The "mm_handler" key is absent from the sequence's metadata mapping. -/
def seqSanitized (s : MDASequence) : Bool :=
  s.metadata.all (fun p => p.1 != "mm_handler")

/-- The "mm_handler" key is absent from the metadata mapping of the
sequence embedded (via the "mda_event" slot) in a frame-metadata record. -/
def frameMetaSanitized (m : FrameMeta) : Bool :=
  match m.mda_event with
  | some ev =>
      match ev.sequence with
      | some sq => seqSanitized sq
      | none => true
  | none => true

/-- Content of one written file: the sequence-description sidecar
(model_dump_json of the sanitized sequence, with its indent argument),
the frame-metadata sidecar (json_dumps of the filename-to-record dict,
with its indent argument), or one image file (pixel payload token). -/
inductive FileContent where
  | seqJson : MDASequence → Option Nat → FileContent
  | frameMetaJson : List (String × FrameMeta) → Option Nat → FileContent
  | image : Nat → FileContent
  deriving DecidableEq

structure WriteEvent where
  path : List String
  content : FileContent
  deriving DecidableEq

structure FS where
  events : List WriteEvent
  dirs : List (List String)
  deriving DecidableEq

def FS.write (fs : FS) (p : List String) (c : FileContent) : FS :=
  { fs with events := { path := p, content := c } :: fs.events }

/-- Path.mkdir(parents=True, exist_ok=True): record the directory, never
fail. -/
def FS.mkdirP (fs : FS) (p : List String) : FS :=
  { fs with dirs := if fs.dirs.contains p then fs.dirs else p :: fs.dirs }

/-- p lies strictly below directory d. -/
def pathUnder (d p : List String) : Bool :=
  (p.take d.length == d) && decide (d.length < p.length)

/-- The directory exists and is non-empty: some written file lies below it. -/
def FS.dirNonEmpty (fs : FS) (d : List String) : Bool :=
  fs.events.any (fun e => pathUnder d e.path)

/-- Number of write events the journal holds for path p. -/
def FS.countWrites (fs : FS) (p : List String) : Nat :=
  (fs.events.filter (fun e => e.path == p)).length

/-- str.startswith(pre), as character-list comparison (String.startsWith
is byte-position based and equivalent; this form is kernel-computable). -/
def strStartsWith (s pre : String) : Bool :=
  s.data.take pre.data.length == pre.data

inductive WriterError where
  | fileExists : WriterError
  deriving DecidableEq

/-- Modelled from the spec: ImageSequenceWriter.fname_template (external
base class, not in src/).  Per spec section 4.2, the filename template is
built once per run from the declared axis list (each axis contributing a
zero-padded field) plus prefix, extension and delimiter, with an optional
running frame-counter field when include_frame_count is requested.  We
represent it by its ingredients; the claims do not depend on the exact
rendering. -/
structure NameTemplate where
  axes : List String
  hasFrameKey : Bool
  pre : String
  ext : String
  delim : String
  deriving DecidableEq

def fname_template (axes : List String) (pre ext delim : String)
    (include_frame_count : Bool) : NameTemplate :=
  { axes := axes, hasFrameKey := include_frame_count, pre := pre, ext := ext,
    delim := delim }

def padTo (w n : Nat) : String :=
  let s := toString n
  String.mk (List.replicate (w - s.length) '0') ++ s

/-- Modelled from the spec: template.format(**indices) renders one
zero-padded field per axis (plus the frame counter field when present),
joined by the delimiter. -/
def NameTemplate.format (t : NameTemplate) (indices : List (String × Nat)) : String :=
  t.pre ++
    (if t.hasFrameKey then padTo 5 ((indices.lookup "frame").getD 0) ++ t.delim
      else "") ++
    String.intercalate t.delim
      (t.axes.map (fun a => a ++ padTo 3 ((indices.lookup a).getD 0))) ++
    t.ext

/-- Modelled from the spec: get_full_sequence_axes (external utility
imported by _tiff_sequence.py, not in src/) returns the sequence's full
ordered axis list. -/
def get_full_sequence_axes (seq : MDASequence) : List String := seq.axes

/-- Writer state: constructor configuration plus the per-run fields the
overridden methods read and write (_counter as the next value the Python
count() iterator would yield, _frame_metadata, _name_template,
_current_sequence, _first_index). -/
structure TiffSequenceWriterMM where
  directory : List String
  pre : String
  ext : String
  delim : String
  overwrite : Bool
  include_frame_count : Bool
  counter : Nat
  frame_metadata : List (String × FrameMeta)
  name_template : Option NameTemplate
  current_sequence : Option MDASequence
  first_index : List (String × Nat)
  deriving DecidableEq

def seqMetaFileName : String := "_useq_MDASequence.json"

def frameMetaFileName : String := "_frame_metadata.json"

def TiffSequenceWriterMM.seq_meta_file (w : TiffSequenceWriterMM) : List String :=
  w.directory ++ [seqMetaFileName]

def TiffSequenceWriterMM.frame_meta_file (w : TiffSequenceWriterMM) : List String :=
  w.directory ++ [frameMetaFileName]

/-- Modelled from the spec: the overwrite check of the external base-class
constructor (ImageSequenceWriter.__init__, not in src/), to which
TiffSequenceWriterMM.__init__ (lines 73-92) forwards all its arguments
unchanged.  Per the class docstring (lines 62-64) and spec sections 3 and
7, when overwrite is False and the target directory already exists and is
non-empty, construction fails with FileExistsError before anything is
written. -/
def TiffSequenceWriterMM.init_check (directory : List String) (overwrite : Bool)
    (fs : FS) : Except WriterError Unit :=
  if fs.dirNonEmpty directory && !overwrite then .error .fileExists else .ok ()

/-- TiffSequenceWriterMM.sequenceStarted (lines 96-122): resets the frame
counter and the metadata buffer, creates the directory (exist_ok), stores
the sequence, builds first_index and the name template, and immediately
writes the sanitized sequence description to the _useq_MDASequence.json
sidecar with indent=2.  The method body contains no raise statement and
no overwrite check, hence the Except value is always ok. -/
def TiffSequenceWriterMM.sequenceStarted (w : TiffSequenceWriterMM) (fs : FS)
    (seq : MDASequence) : Except WriterError (TiffSequenceWriterMM × FS) :=
  let w1 := { w with counter := 0, frame_metadata := [] }
  let fs1 := fs.mkdirP w.directory
  let axes := get_full_sequence_axes seq
  let w2 := { w1 with
    current_sequence := some seq,
    first_index := axes.map (fun a => (a, 0)),
    name_template :=
      some (fname_template axes w.pre w.ext w.delim w.include_frame_count) }
  let updated_seq := popMMHandlerSeq seq
  let fs2 := fs1.write w.seq_meta_file (.seqJson updated_seq (some 2))
  .ok (w2, fs2)

/-- TiffSequenceWriterMM.frameReady (lines 124-162): computes the
filename, creates the per-position directory, writes the pixel data,
sanitizes the metadata record in place (meta["mda_event"] = ev_clean),
stores it in the buffer under the filename, and rewrites the
_frame_metadata.json sidecar with indent=2 when the frame counter is a
multiple of 10.  The third result component is the record as the caller's
reference observes it after the in-place assignment. -/
def TiffSequenceWriterMM.frameReady (w : TiffSequenceWriterMM) (fs : FS)
    (frame : Nat) (event : MDAEvent) (meta : FrameMeta) :
    TiffSequenceWriterMM × FS × FrameMeta :=
  let frame_idx := w.counter
  let w1 := { w with counter := w.counter + 1 }
  let filename :=
    match w.name_template with
    | some t =>
        let indices :=
          if t.hasFrameKey then
            dictUpdate (dictUpdate w.first_index event.index)
              [("frame", frame_idx)]
          else dictUpdate w.first_index event.index
        t.format indices
    | none => w.pre ++ "_fr" ++ padTo 5 frame_idx ++ ".tif"
  let pos_name :=
    match event.pos_name with
    | some n =>
        if n == "" then "p" ++ toString ((event.index.lookup "p").getD 0) else n
    | none => "p" ++ toString ((event.index.lookup "p").getD 0)
  let fs1 := fs.mkdirP (w.directory ++ [pos_name])
  let fs2 := fs1.write (w.directory ++ [pos_name, filename]) (.image frame)
  let meta1 := sanitizeFrameMeta meta
  let w2 := { w1 with frame_metadata := setKey filename meta1 w1.frame_metadata }
  let fs3 :=
    if frame_idx % 10 == 0 then
      fs2.write w.frame_meta_file (.frameMetaJson w2.frame_metadata (some 2))
    else fs2
  (w2, fs3, meta1)

/-- Modelled from the spec: ImageSequenceWriter.sequenceFinished (external
base class, not in src/, and not overridden in this repository).  Per spec
section 4.3 it flushes all remaining buffered frame metadata to the
sidecar regardless of the cadence; per section 6 the sidecar JSON is
pretty-printed. -/
def TiffSequenceWriterMM.sequenceFinished (w : TiffSequenceWriterMM) (fs : FS) : FS :=
  fs.write w.frame_meta_file (.frameMetaJson w.frame_metadata (some 2))

def emptyFS : FS := { events := [], dirs := [] }

/-- One frameReady step of a TIFF-sequence run: thread the writer state
and the file system, dropping the caller-visible record. -/
def tiffStep (st : TiffSequenceWriterMM × FS)
    (f : Nat × MDAEvent × FrameMeta) : TiffSequenceWriterMM × FS :=
  ((st.1.frameReady st.2 f.1 f.2.1 f.2.2).1,
   (st.1.frameReady st.2 f.1 f.2.1 f.2.2).2.1)

/-- One complete run of the TIFF-sequence writer into a fresh directory:
sequenceStarted, every frameReady in order, then sequenceFinished. -/
def tiffRun (w0 : TiffSequenceWriterMM) (seq : MDASequence)
    (frames : List (Nat × MDAEvent × FrameMeta)) : TiffSequenceWriterMM × FS :=
  match w0.sequenceStarted emptyFS seq with
  | .error _ => (w0, emptyFS)
  | .ok s =>
      let s2 := frames.foldl tiffStep s
      (s2.1, s2.1.sequenceFinished s2.2)

/-- One attribute value: the sanitized sequence description
(to_builtins of the model), a serialized frame-metadata list, the
dimension-name list, the multiscales items (path paired with dims, from
_multiscales_item), or the xarray coordinate data derived from an array's
shape. -/
inductive AttrVal where
  | seqVal : MDASequence → AttrVal
  | frameMetaVal : List FrameMeta → AttrVal
  | dimsVal : List String → AttrVal
  | multiscalesVal : List (String × List String) → AttrVal
  | coordsVal : List Nat → AttrVal
  deriving DecidableEq

structure ZarrArray where
  path : String
  shape : List Nat
  chunks : List Nat
  attrs : List (String × AttrVal)
  deriving DecidableEq

/-- Writer state: group-level attributes, the key-to-array mapping
(self._group storage and the base class's position_arrays dict, which in
every run hold the same arrays), the frame-metadata buffer, the current
sequence, and the minify option. -/
structure OMEZarrWriterMM where
  group_attrs : List (String × AttrVal)
  position_arrays : List (String × ZarrArray)
  frame_metadatas : List (String × List FrameMeta)
  current_sequence : Option MDASequence
  minify_metadata : Bool
  deriving DecidableEq

/-- OMEZarrWriterMM.new_array (lines 100-122): dims and shape come from
the sizes mapping in insertion order; chunks are (1,) * len(shape[:-2]) +
shape[-2:], i.e. a single XY plane per chunk; a multiscales item is
appended to the group attributes; the array gets _ARRAY_DIMENSIONS and,
when a current sequence exists, the sanitized sequence description under
useq_MDASequence. -/
def OMEZarrWriterMM.new_array (w : OMEZarrWriterMM) (key : String)
    (sizes : List (String × Nat)) : OMEZarrWriterMM × ZarrArray :=
  let dims := sizes.map (fun p => p.1)
  let shape := sizes.map (fun p => p.2)
  let ary0 : ZarrArray :=
    { path := key, shape := shape,
      chunks := List.replicate (shape.length - 2) 1 ++ shape.drop (shape.length - 2),
      attrs := [] }
  let scales :=
    match w.group_attrs.lookup "multiscales" with
    | some (.multiscalesVal s) => s
    | _ => []
  let w1 := { w with
    group_attrs :=
      setKey "multiscales" (.multiscalesVal (scales ++ [(ary0.path, dims)]))
        w.group_attrs }
  let ary1 := { ary0 with
    attrs := setKey "_ARRAY_DIMENSIONS" (.dimsVal dims) ary0.attrs }
  let ary2 :=
    match w.current_sequence with
    | some seq =>
        { ary1 with
          attrs := setKey "useq_MDASequence" (.seqVal (popMMHandlerSeq seq))
            ary1.attrs }
    | none => ary1
  (w1, ary2)

/-- Modelled from the spec: OMEZarrWriter.sequenceStarted (external base
class, not in src/): per spec section 4.3 it resets the per-run state
(counters, buffers, lazily created arrays) and stores the sequence; the
target group is fresh for the run. -/
def OMEZarrWriterMM.sequenceStartedModel (w : OMEZarrWriterMM)
    (seq : MDASequence) : OMEZarrWriterMM :=
  { w with
    group_attrs := [],
    position_arrays := [],
    frame_metadatas := [],
    current_sequence := some seq }

/-- Modelled from the spec: OMEZarrWriter.frameReady (external base class,
not in src/): per spec sections 4.3 and 9, on the first frame for a
sub-array key the backing array is created through new_array
(check-and-create) and stored under the key; the pixel plane is written
into the array (chunk data is not represented); the raw per-frame
metadata record is appended to the buffer under the key. -/
def OMEZarrWriterMM.frameReadyModel (w : OMEZarrWriterMM) (key : String)
    (sizes : List (String × Nat)) (meta : FrameMeta) : OMEZarrWriterMM :=
  let w1 :=
    match w.position_arrays.lookup key with
    | some _ => w
    | none =>
        let r := w.new_array key sizes
        { r.1 with position_arrays := setKey key r.2 r.1.position_arrays }
  let old := (w1.frame_metadatas.lookup key).getD []
  { w1 with frame_metadatas := setKey key (old ++ [meta]) w1.frame_metadatas }

/-- Modelled from the spec: OMEZarrWriter._populate_xarray_coords
(external base class, not in src/): writes per-array xarray coordinate
data derived from the array's shape; deterministic in the shape, reads
nothing from the frame-metadata buffer. -/
def coordifyArray (a : ZarrArray) : ZarrArray :=
  { a with attrs := setKey "_xarray_coords" (.coordsVal a.shape) a.attrs }

def OMEZarrWriterMM.populate_xarray_coords (w : OMEZarrWriterMM) : OMEZarrWriterMM :=
  { w with
    position_arrays := w.position_arrays.map (fun p => (p.1, coordifyArray p.2)) }

/-- Modelled from the spec: OMEZarrWriter._minify_zattrs_metadata
(external base class, not in src/): re-serializes the on-disk .zattrs
JSON without whitespace; at the level of attribute values, which is what
this model represents, the content is unchanged. -/
def OMEZarrWriterMM.minify_zattrs_metadata (w : OMEZarrWriterMM) : OMEZarrWriterMM :=
  w

/-- The while-loop of finalize_metadata (lines 128-147): pop every buffer
item (dict.popitem is last-in-first-out, so items are processed in
reverse insertion order; the keys are distinct); for keys that have a
position array, sanitize every record of the list and store the result
under the array's frame_meta attribute. -/
def flushFrameMetas (items : List (String × List FrameMeta)) (w : OMEZarrWriterMM) :
    OMEZarrWriterMM :=
  match items with
  | [] => w
  | (key, metas) :: rest =>
      let w1 :=
        match w.position_arrays.lookup key with
        | some ary =>
            let updated_metas := metas.map sanitizeFrameMeta
            { w with
              position_arrays :=
                setKey key
                  { ary with
                    attrs := setKey "frame_meta" (.frameMetaVal updated_metas)
                      ary.attrs }
                  w.position_arrays }
        | none => w
      flushFrameMetas rest w1

/-- OMEZarrWriterMM.finalize_metadata (lines 124-150): populate the
xarray coordinates, drain the frame-metadata buffer into per-array
frame_meta attributes, then minify the zattrs when requested. -/
def OMEZarrWriterMM.finalize_metadata (w : OMEZarrWriterMM) : OMEZarrWriterMM :=
  let w1 := w.populate_xarray_coords
  let w2 := flushFrameMetas w1.frame_metadatas.reverse
    { w1 with frame_metadatas := [] }
  if w2.minify_metadata then w2.minify_zattrs_metadata else w2

/-- One complete run of the OME-Zarr writer: sequenceStarted, every
frameReady in order (sub-array key, sizes mapping, frame-metadata
record), then finalize_metadata (called by the base class from
sequenceFinished). -/
def omeRun (w0 : OMEZarrWriterMM) (seq : MDASequence)
    (inputs : List (String × List (String × Nat) × FrameMeta)) : OMEZarrWriterMM :=
  (inputs.foldl (fun w i => w.frameReadyModel i.1 i.2.1 i.2.2)
    (w0.sequenceStartedModel seq)).finalize_metadata

/-- All persisted attribute values of the store: the group attributes and
every array's attributes. -/
def OMEZarrWriterMM.allAttrVals (w : OMEZarrWriterMM) : List AttrVal :=
  w.group_attrs.map (fun p => p.2) ++
    (w.position_arrays.map (fun p => p.2.attrs.map (fun q => q.2))).flatten

/-- The embedded sequence metadata of one attribute value has no
"mm_handler" key (vacuously true for values that embed no sequence). -/
def attrValSanitized : AttrVal → Bool
  | .seqVal s => seqSanitized s
  | .frameMetaVal l => l.all frameMetaSanitized
  | .dimsVal _ => true
  | .multiscalesVal _ => true
  | .coordsVal _ => true

/-- One value of the attributes document: the frame-metadata list, the
coordinate-to-flat-index pairs, or an opaque pre-existing tensorstore
driver attribute. -/
inductive TSVal where
  | metasVal : List FrameMeta → TSVal
  | indicesVal : List (List (String × Nat) × Nat) → TSVal
  | driverVal : Nat → TSVal
  deriving DecidableEq

/-- One JSON document held by the key-value store, together with the
indent argument json_dumps was given when it was serialized. -/
structure JsonFile where
  doc : List (String × TSVal)
  indent : Option Nat
  deriving DecidableEq

/-- store.kvstore: JSON documents by path, plus the pixel chunks (keyed by
flat frame index, holding the pixel payload token). -/
structure KVStore where
  files : List (String × JsonFile)
  chunks : List (String × Nat)
  deriving DecidableEq

/-- Writer state.  store models self._store together with its kvstore
(none both when no backing store has been created yet and when the store
has no kvstore, the two cases the guard of finalize_metadata returns on);
frame_metadatas is the base class's buffered list of (event, record)
pairs, the event standing left abstract as a token; frame_indices is the
base class's coordinate-to-flat-index map of non-nD storage mode. -/
structure TensorStoreWriterMM where
  store : Option KVStore
  ts_driver : String
  nd_storage : Bool
  frame_metadatas : List (Nat × FrameMeta)
  frame_indices : List (List (String × Nat) × Nat)
  deriving DecidableEq

/-- The record-sanitization loop of finalize_metadata (lines 100-109):
every buffered (event, record) pair is sanitized in place; the resulting
list is both what the buffer holds afterwards and, projected to its
second components, the frames_meta list. -/
def tsCleanPairs (l : List (Nat × FrameMeta)) : List (Nat × FrameMeta) :=
  l.map (fun m => (m.1, sanitizeFrameMeta m.2))

/-- The metadata document of finalize_metadata (lines 111-117):
"frame_metadatas" always, "frame_indices" exactly when not in nD storage
mode. -/
def tsMetadataDoc (nd : Bool) (cleaned : List (Nat × FrameMeta))
    (fi : List (List (String × Nat) × Nat)) : List (String × TSVal) :=
  if nd then [("frame_metadatas", TSVal.metasVal (cleaned.map (fun m => m.2)))]
  else
    [("frame_metadatas", TSVal.metasVal (cleaned.map (fun m => m.2))),
     ("frame_indices", TSVal.indicesVal fi)]

/-- The store write of finalize_metadata (lines 119-126): .zattrs for
drivers starting with "zarr"; merged into attributes.json for "n5"; no
write at all for any other driver.  Both json_dumps calls pass no
indent. -/
def tsWriteMetadata (drv : String) (md : List (String × TSVal))
    (store : KVStore) : KVStore :=
  if strStartsWith drv "zarr" then
    { store with
      files := setKey ".zattrs" { doc := md, indent := none } store.files }
  else if drv == "n5" then
    let attrs :=
      ((store.files.lookup "attributes.json").map (fun f => f.doc)).getD []
    { store with
      files := setKey "attributes.json"
        { doc := dictUpdate attrs md, indent := none } store.files }
  else store

/-- TensorStoreWriterMM.finalize_metadata (lines 93-126): return
unchanged when there is no backing store; otherwise sanitize every
buffered record in place and write the metadata document as the driver
dictates. -/
def TensorStoreWriterMM.finalize_metadata (w : TensorStoreWriterMM) :
    TensorStoreWriterMM :=
  match w.store with
  | none => w
  | some store =>
      let cleanedPairs := tsCleanPairs w.frame_metadatas
      { w with
        store := some (tsWriteMetadata w.ts_driver
          (tsMetadataDoc w.nd_storage cleanedPairs w.frame_indices) store),
        frame_metadatas := cleanedPairs }

/-- Modelled from the spec: TensorStoreHandler.sequenceStarted (external
base class, not in src/): resets the per-run buffers and the
coordinate-to-index map; the backing store is not created yet (it is
created lazily on the first frame). -/
def TensorStoreWriterMM.sequenceStartedModel (w : TensorStoreWriterMM) (nd : Bool) :
    TensorStoreWriterMM :=
  { w with
    store := none,
    frame_metadatas := [],
    frame_indices := [],
    nd_storage := nd }

/-- Modelled from the spec: TensorStoreHandler.frameReady (external base
class, not in src/): creates the backing store on the first frame, writes
the pixel chunk keyed by the flat frame index, appends the raw (event,
record) pair to the buffer, and in non-nD mode maps the event's axis
coordinates to the next flat index on first encounter (spec sections 4.2
and 4.3). -/
def TensorStoreWriterMM.frameReadyModel (w : TensorStoreWriterMM) (tok : Nat)
    (eventIndex : List (String × Nat)) (meta : FrameMeta) : TensorStoreWriterMM :=
  let st := w.store.getD { files := [], chunks := [] }
  let idx := w.frame_metadatas.length
  let st2 := { st with chunks := (toString idx, tok) :: st.chunks }
  let fi :=
    if w.nd_storage then w.frame_indices
    else if (w.frame_indices.lookup eventIndex).isSome then w.frame_indices
    else w.frame_indices ++ [(eventIndex, idx)]
  { w with
    store := some st2,
    frame_metadatas := w.frame_metadatas ++ [(tok, meta)],
    frame_indices := fi }

/-- One complete run of the tensorstore writer: sequenceStarted, every
frameReady in order, then finalize_metadata (called from
sequenceFinished). -/
def tsRun (w0 : TensorStoreWriterMM) (nd : Bool)
    (inputs : List (Nat × List (String × Nat) × FrameMeta)) : TensorStoreWriterMM :=
  (inputs.foldl (fun w i => w.frameReadyModel i.1 i.2.1 i.2.2)
    (w0.sequenceStartedModel nd)).finalize_metadata

def tsValSanitized : TSVal → Bool
  | .metasVal l => l.all frameMetaSanitized
  | .indicesVal _ => true
  | .driverVal _ => true

/-- Every JSON document persisted in the key-value store only holds
sanitized values. -/
def storeSanitized : Option KVStore → Bool
  | none => true
  | some st => st.files.all (fun f => f.2.doc.all (fun p => tsValSanitized p.2))

/-- A sequence whose user metadata holds the live-handler slot. -/
def seqWithHandler : MDASequence :=
  { axes := ["p"], sizes := [("p", 1)],
    metadata := [("mm_handler", MetaVal.handler 0)] }

/-- An event of that sequence. -/
def evWithHandler : MDAEvent :=
  { index := [("p", 0)], pos_name := none, sequence := some seqWithHandler }

/-- A frame-metadata record embedding that event. -/
def metaWithHandler : FrameMeta :=
  { mda_event := some evWithHandler, extra := [] }

/-- A freshly constructed TIFF-sequence writer targeting ["out"] with the
default configuration (overwrite=False, include_frame_count=True). -/
def tiffW0 : TiffSequenceWriterMM :=
  { directory := ["out"], pre := "", ext := ".tif", delim := "_",
    overwrite := false, include_frame_count := true, counter := 0,
    frame_metadata := [], name_template := none, current_sequence := none,
    first_index := [] }

/-- A file system whose directory ["out"] exists and is non-empty. -/
def fsOutNonEmpty : FS :=
  { events := [{ path := ["out", "old.tif"], content := FileContent.image 0 }],
    dirs := [["out"]] }

/-- The canonical form of the sanitized record: the input record with
"mm_handler" erased from the embedded sequence metadata and everything
else unchanged.  Used to characterize sanitizeFrameMeta. -/
def sanitizeSpecForm (meta : FrameMeta) : FrameMeta :=
  { meta with
    mda_event := meta.mda_event.map
      (fun ev => { ev with sequence := ev.sequence.map popMMHandlerSeq }) }

/-- Every embedded-sequence metadata mapping of the content lacks the
"mm_handler" key. -/
def contentSanitizedB : FileContent → Bool
  | .seqJson s _ => seqSanitized s
  | .frameMetaJson l _ => l.all (fun p => frameMetaSanitized p.2)
  | .image _ => true

/-- The content is pretty-printed when it is a JSON sidecar: the indent
argument is 2 (image files carry no JSON). -/
def indentOkB : FileContent → Bool
  | .seqJson _ i => i == some 2
  | .frameMetaJson _ i => i == some 2
  | .image _ => true

/-- A tensorstore writer with the zarr driver, an empty backing store and
no buffered records, in nD storage mode. -/
def tsZarrW0 : TensorStoreWriterMM :=
  { store := some { files := [], chunks := [] }, ts_driver := "zarr",
    nd_storage := true, frame_metadatas := [], frame_indices := [] }

/-! ## Theorems -/

theorem seqSanitized_popMMHandlerSeq (s : MDASequence) :
    seqSanitized (popMMHandlerSeq s) = true := by
  simp only [seqSanitized, popMMHandlerSeq, popKeyA, List.all_eq_true]
  intro p hp
  exact (List.mem_filter.mp hp).2

theorem frameMetaSanitized_sanitize (m : FrameMeta) :
    frameMetaSanitized (sanitizeFrameMeta m) = true := by
  unfold sanitizeFrameMeta frameMetaSanitized
  cases hev : m.mda_event with
  | none => simp [hev]
  | some ev =>
      cases hsq : ev.sequence with
      | none => simp [hev, hsq]
      | some sq => simp [hev, hsq, seqSanitized_popMMHandlerSeq]

theorem popKeyA_idem {α : Type} (k : String) (d : List (String × α)) :
    popKeyA k (popKeyA k d) = popKeyA k d := by
  simp [popKeyA, List.filter_filter]

theorem sanitizeFrameMeta_idem (m : FrameMeta) :
    sanitizeFrameMeta (sanitizeFrameMeta m) = sanitizeFrameMeta m := by
  unfold sanitizeFrameMeta popMMHandlerSeq
  cases hev : m.mda_event with
  | none => simp [hev]
  | some ev =>
      cases hsq : ev.sequence with
      | none => simp [hev, hsq]
      | some sq => simp [hev, hsq, popKeyA_idem]

theorem setKey_absorb {α : Type} (k : String) (v : α) (l : List (String × α)) :
    setKey k v (setKey k v l) = setKey k v l := by
  induction l with
  | nil => simp [setKey]
  | cons p t ih =>
      by_cases h : p.1 == k
      · simp [setKey, h]
      · simp [setKey, h, ih]

theorem setKey_absorb_after {α : Type} (k k2 : String) (h : k ≠ k2) (v : α) (v2 : α)
    (l : List (String × α)) :
    setKey k v (setKey k2 v2 (setKey k v l)) = setKey k2 v2 (setKey k v l) := by
  induction l with
  | nil =>
      have hne : (k == k2) = false := by
        simpa using h
      simp [setKey, hne]
  | cons p t ih =>
      by_cases h1 : p.1 == k
      · have hne : (k == k2) = false := by
          simpa using h
        simp [setKey, h1, hne]
      · by_cases h2 : p.1 == k2
        · have hp : p.1 = k2 := by simpa using h2
          have hne2 : (k2 == k) = false := by
            simpa using (Ne.symm h)
          simp [setKey, h1, h2, hp, hne2, setKey_absorb]
        · simp [setKey, h1, h2, ih]

theorem lookup_setKey_self {α : Type} (k : String) (v : α) (l : List (String × α)) :
    (setKey k v l).lookup k = some v := by
  induction l with
  | nil => simp [setKey, List.lookup]
  | cons p t ih =>
      by_cases h : p.1 == k
      · simp [setKey, h, List.lookup]
      · have h2 : (k == p.1) = false := by
          rw [beq_eq_false_iff_ne]
          intro e
          exact h (by simp [e])
        simp [setKey, h, List.lookup, h2, ih]

theorem lookup_setKey_ne {α : Type} (k k2 : String) (h : (k2 == k) = false) (v : α)
    (l : List (String × α)) :
    (setKey k v l).lookup k2 = l.lookup k2 := by
  induction l with
  | nil => simp [setKey, List.lookup, h]
  | cons p t ih =>
      by_cases h1 : p.1 == k
      · have hp : p.1 = k := by simpa using h1
        have : (k2 == p.1) = false := by rw [hp]; exact h
        simp [setKey, h1, List.lookup, h, this]
      · simp [setKey, h1, List.lookup, ih]

theorem all_setKey {α : Type} (p : String × α → Bool) (k : String) (v : α)
    (l : List (String × α)) (hl : l.all p = true) (hv : p (k, v) = true) :
    (setKey k v l).all p = true := by
  induction l with
  | nil => simp [setKey, hv]
  | cons q t ih =>
      simp only [List.all_cons, Bool.and_eq_true] at hl
      by_cases h : q.1 == k
      · simp [setKey, h, hv, hl.2]
      · simp [setKey, h, hl.1, ih hl.2]

theorem mem_setKey {α : Type} (k : String) (v : α) (l : List (String × α))
    (q : String × α) (hq : q ∈ setKey k v l) : q = (k, v) ∨ q ∈ l := by
  induction l with
  | nil => simp [setKey] at hq; simp [hq]
  | cons p t ih =>
      by_cases h : p.1 == k
      · simp [setKey, h] at hq
        rcases hq with h1 | h1
        · left; simp [h1]
        · right; simp [h1]
      · simp [setKey, h] at hq
        rcases hq with h1 | h1
        · right; simp [h1]
        · rcases ih h1 with h2 | h2
          · left; exact h2
          · right; simp [h2]

theorem lookup_mem {α : Type} (k : String) (v : α) (l : List (String × α))
    (h : l.lookup k = some v) : (k, v) ∈ l := by
  induction l with
  | nil => simp [List.lookup] at h
  | cons p t ih =>
      by_cases h1 : k == p.1
      · have hp : k = p.1 := by simpa using h1
        simp [List.lookup, h1] at h
        have : (k, v) = p := by
          cases p
          simp_all
        rw [this]
        exact List.mem_cons_self _ _
      · simp [List.lookup, h1] at h
        right
        exact ih h

theorem map_eq_self_of_fixed {α : Type} (f : α → α) (l : List α)
    (h : ∀ a ∈ l, f a = a) : l.map f = l := by
  induction l with
  | nil => rfl
  | cons a t ih =>
      simp only [List.map_cons]
      rw [h a (by simp), ih (fun b hb => h b (by simp [hb]))]

theorem foldl_inv {α β : Type} (P : β → Prop) (f : β → α → β)
    (hf : ∀ b a, P b → P (f b a)) (l : List α) (b : β) (hb : P b) :
    P (l.foldl f b) := by
  induction l generalizing b with
  | nil => exact hb
  | cons a t ih => exact ih (f b a) (hf b a hb)

/-- C8: for every array created by OMEZarrWriterMM.new_array from a sizes
mapping with at least two axes (the last two being Y and X), the chunk
shape is (1, ..., 1, Y, X) — a single XY plane per chunk — and the
array's dimension order (its _ARRAY_DIMENSIONS attribute) is the order of
the sizes mapping. -/
theorem C8_new_array_single_plane_chunks (w : OMEZarrWriterMM) (key : String)
    (pre2 : List (String × Nat)) (yn xn : String) (Y X : Nat) :
    (w.new_array key (pre2 ++ [(yn, Y), (xn, X)])).2.chunks =
        List.replicate pre2.length 1 ++ [Y, X] ∧
    (w.new_array key (pre2 ++ [(yn, Y), (xn, X)])).2.attrs.lookup
        "_ARRAY_DIMENSIONS" =
        some (AttrVal.dimsVal (pre2.map (fun p => p.1) ++ [yn, xn])) := by
  have hchunks :
      List.replicate
          (((pre2 ++ [(yn, Y), (xn, X)]).map (fun p => p.2)).length - 2) 1 ++
        ((pre2 ++ [(yn, Y), (xn, X)]).map (fun p => p.2)).drop
          (((pre2 ++ [(yn, Y), (xn, X)]).map (fun p => p.2)).length - 2) =
      List.replicate pre2.length 1 ++ [Y, X] := by
    have hlen : ((pre2 ++ [(yn, Y), (xn, X)]).map (fun p => p.2)).length - 2 =
        (pre2.map (fun p => p.2)).length := by simp
    rw [hlen]
    have hshape : (pre2 ++ [(yn, Y), (xn, X)]).map (fun p => p.2) =
        pre2.map (fun p => p.2) ++ [Y, X] := by simp
    rw [hshape, List.drop_left]
    simp
  have hdims : (pre2 ++ [(yn, Y), (xn, X)]).map (fun p => p.1) =
      pre2.map (fun p => p.1) ++ [yn, xn] := by simp
  have hne : (("_ARRAY_DIMENSIONS" : String) == "useq_MDASequence") = false := by
    decide
  cases hcs : w.current_sequence with
  | none =>
      constructor
      · simp only [OMEZarrWriterMM.new_array, hcs]
        exact hchunks
      · simp only [OMEZarrWriterMM.new_array, hcs]
        simp [setKey, List.lookup, hdims]
  | some seq =>
      constructor
      · simp only [OMEZarrWriterMM.new_array, hcs]
        exact hchunks
      · simp only [OMEZarrWriterMM.new_array, hcs]
        rw [lookup_setKey_ne _ _ hne]
        simp [setKey, List.lookup, hdims]

/-- C9: with the neuroglancer_precomputed driver, finalize_metadata
persists nothing: the backing store (its files and chunks) is exactly the
one before the call — neither the frame-metadata list nor the
coordinate-to-index map is written. -/
theorem C9_neuroglancer_writes_nothing (w : TensorStoreWriterMM) :
    ({ w with ts_driver := "neuroglancer_precomputed" } :
        TensorStoreWriterMM).finalize_metadata.store = w.store := by
  unfold TensorStoreWriterMM.finalize_metadata
  cases hs : w.store with
  | none => simp [hs]
  | some st =>
      have h1 : strStartsWith "neuroglancer_precomputed" "zarr" = false := by decide
      have h2 : (("neuroglancer_precomputed" : String) == "n5") = false := by decide
      simp [hs, tsWriteMetadata, h1, h2]

/-- C10: calling finalize_metadata when no backing store has been created
returns without raising and performs no write: the writer state, its
store included, is completely unchanged. -/
theorem C10_finalize_without_store_noop (w : TensorStoreWriterMM) :
    ({ w with store := none } : TensorStoreWriterMM).finalize_metadata =
      { w with store := none } := by
  unfold TensorStoreWriterMM.finalize_metadata
  simp

/-- C6: for a flat-tensor writer with a zarr-family driver and a backing
store, finalize_metadata writes a .zattrs document that always contains
the "frame_metadatas" key and contains the "frame_indices" key exactly
when the run is in non-nD (ragged) storage mode. -/
theorem C6_zattrs_keys (w : TensorStoreWriterMM) (st : KVStore) (drv : String)
    (hd : drv = "zarr" ∨ drv = "zarr3") :
    ∃ st2 f,
      ({ w with store := some st, ts_driver := drv } :
          TensorStoreWriterMM).finalize_metadata.store = some st2 ∧
      st2.files.lookup ".zattrs" = some f ∧
      (f.doc.lookup "frame_metadatas").isSome = true ∧
      ((f.doc.lookup "frame_indices").isSome = true ↔ w.nd_storage = false) := by
  have hz : strStartsWith drv "zarr" = true := by
    rcases hd with h | h <;> rw [h] <;> decide
  unfold TensorStoreWriterMM.finalize_metadata tsWriteMetadata
  simp only [hz, if_true]
  refine ⟨_, _, rfl, lookup_setKey_self _ _ _, ?_⟩
  have hne : (("frame_indices" : String) == "frame_metadatas") = false := by decide
  unfold tsMetadataDoc
  cases hnd : w.nd_storage with
  | true => simp [List.lookup, hne]
  | false => simp [List.lookup, hne]

/-- Witness for C6 at a concrete input: the zarr driver, an empty backing
store, no buffered records, non-nD storage mode. -/
theorem C6_zattrs_keys_witness :
    ∃ st2 f,
      ({ store := some { files := [], chunks := [] }, ts_driver := "zarr",
         nd_storage := false, frame_metadatas := [], frame_indices := [] } :
          TensorStoreWriterMM).finalize_metadata.store = some st2 ∧
      st2.files.lookup ".zattrs" = some f ∧
      (f.doc.lookup "frame_metadatas").isSome = true ∧
      ((f.doc.lookup "frame_indices").isSome = true ↔ false = false) :=
  C6_zattrs_keys
    { store := none, ts_driver := "", nd_storage := false, frame_metadatas := [],
      frame_indices := [] }
    { files := [], chunks := [] } "zarr" (Or.inl rfl)

theorem countWrites_write_self (fs : FS) (p : List String) (c : FileContent) :
    (fs.write p c).countWrites p = fs.countWrites p + 1 := by
  simp [FS.write, FS.countWrites]

theorem countWrites_write_ne (fs : FS) (p q : List String) (c : FileContent)
    (h : (p == q) = false) :
    (fs.write p c).countWrites q = fs.countWrites q := by
  simp [FS.write, FS.countWrites, List.filter_cons, h]

theorem countWrites_mkdirP (fs : FS) (d q : List String) :
    (fs.mkdirP d).countWrites q = fs.countWrites q := by
  simp [FS.mkdirP, FS.countWrites]

theorem append_two_one_beq_false (d : List String) (a b c : String) :
    ((d ++ [a, b]) == (d ++ [c])) = false := by
  rw [beq_eq_false_iff_ne]
  intro e
  have hlen := congrArg List.length e
  simp at hlen

/-- C7: in TiffSequenceWriterMM, sequenceStarted resets the running frame
counter to 0; every frameReady increments it by one, always buffers the
record, and rewrites the _frame_metadata.json sidecar exactly when the
counter value used for the frame is a multiple of 10 (on all other frames
the journal gains no write to the sidecar path). -/
theorem C7_metadata_flush_every_10_frames (w : TiffSequenceWriterMM) (fs : FS)
    (frame : Nat) (event : MDAEvent) (meta : FrameMeta) (seq : MDASequence) :
    (w.frameReady fs frame event meta).2.1.countWrites w.frame_meta_file =
        fs.countWrites w.frame_meta_file +
          (if w.counter % 10 == 0 then 1 else 0) ∧
    (w.frameReady fs frame event meta).1.counter = w.counter + 1 ∧
    (w.frameReady fs frame event meta).1.frame_metadata =
        setKey
          (match w.name_template with
           | some t =>
               t.format
                 (if t.hasFrameKey then
                   dictUpdate (dictUpdate w.first_index event.index)
                     [("frame", w.counter)]
                  else dictUpdate w.first_index event.index)
           | none => w.pre ++ "_fr" ++ padTo 5 w.counter ++ ".tif")
          (sanitizeFrameMeta meta) w.frame_metadata ∧
    ((w.sequenceStarted fs seq).toOption.map (fun p => p.1.counter)) = some 0 := by
  refine ⟨?_, rfl, rfl, rfl⟩
  simp only [TiffSequenceWriterMM.frameReady, TiffSequenceWriterMM.frame_meta_file]
  by_cases h : (w.counter % 10 == 0) = true
  · rw [if_pos h, if_pos h]
    rw [countWrites_write_self]
    rw [countWrites_write_ne _ _ _ _ (append_two_one_beq_false _ _ _ _)]
    rw [countWrites_mkdirP]
  · rw [if_neg h, if_neg h]
    rw [countWrites_write_ne _ _ _ _ (append_two_one_beq_false _ _ _ _)]
    rw [countWrites_mkdirP]
    simp

/-- C1 (counterexample): the claim as stated is false.  Concrete input:
overwrite is False, the target directory ["out"] already exists and is
non-empty (it holds a file) — yet sequenceStarted does not raise (the
overridden method body contains no overwrite check and no raise) and it
does write: the journal grows by one write, the sequence sidecar. -/
theorem C1_counterexample_sequenceStarted_writes :
    FS.dirNonEmpty fsOutNonEmpty ["out"] = true ∧
    tiffW0.overwrite = false ∧
    (tiffW0.sequenceStarted fsOutNonEmpty seqWithHandler).toOption.map
      (fun p => p.2.events.length) = some 2 := by
  refine ⟨by decide, rfl, rfl⟩

/-- C1 (amended): the overwrite protection of the TIFF-sequence writer
lives at construction, not in sequenceStarted: constructing with
overwrite=False while the target directory exists and is non-empty fails
with FileExistsError before anything is written (base-class constructor,
modelled from the spec and the class docstring), whereas the overridden
sequenceStarted itself performs no overwrite check — on every input it
returns successfully and immediately writes the sanitized sequence
sidecar into the directory. -/
theorem C1_overwrite_check_at_construction (fs : FS) (d : List String)
    (nm : String) (c : FileContent) (w : TiffSequenceWriterMM) (fs2 : FS)
    (seq : MDASequence) :
    TiffSequenceWriterMM.init_check d false (fs.write (d ++ [nm]) c) =
        Except.error WriterError.fileExists ∧
    ∃ p, w.sequenceStarted fs2 seq = Except.ok p ∧
      p.2.events.head? = some
        { path := w.seq_meta_file,
          content := FileContent.seqJson (popMMHandlerSeq seq) (some 2) } := by
  constructor
  · unfold TiffSequenceWriterMM.init_check
    have hne : (fs.write (d ++ [nm]) c).dirNonEmpty d = true := by
      simp [FS.write, FS.dirNonEmpty, pathUnder, List.take_left]
    simp [hne]
  · exact ⟨_, rfl, rfl⟩

/-- C2 (counterexample): the claim as stated is false.  Concrete input: a
frame-metadata record whose embedded sequence metadata holds
"mm_handler".  After frameReady, the caller's record no longer holds its
original "mda_event" value: the in-place assignment
meta["mda_event"] = ev_clean replaced it with the sanitized copy. -/
theorem C2_counterexample_record_mutated :
    (tiffW0.frameReady emptyFS 0 evWithHandler metaWithHandler).2.2 ≠
      metaWithHandler := by
  decide

/-- C2 (amended): sanitization never mutates the wrapped event or
sequence objects (model_copy builds fresh copies), but it does replace
the "mda_event" entry of the frame-metadata record in place: after
frameReady the caller's record equals the input record with "mm_handler"
erased from the embedded sequence's metadata and with every other part
unchanged; finalize_metadata of the tensorstore writer likewise leaves
the buffered records with their "mda_event" entries replaced by the
sanitized copies. -/
theorem C2_sanitize_replaces_event_in_place (w : TiffSequenceWriterMM) (fs : FS)
    (frame : Nat) (event : MDAEvent) (meta : FrameMeta)
    (w2 : TensorStoreWriterMM) (st : KVStore) :
    (w.frameReady fs frame event meta).2.2 = sanitizeFrameMeta meta ∧
    sanitizeFrameMeta meta = sanitizeSpecForm meta ∧
    ({ w2 with store := some st } :
        TensorStoreWriterMM).finalize_metadata.frame_metadatas =
      w2.frame_metadatas.map (fun p => (p.1, sanitizeFrameMeta p.2)) := by
  refine ⟨rfl, ?_, rfl⟩
  obtain ⟨mev, mex⟩ := meta
  cases mev with
  | none => rfl
  | some ev =>
      obtain ⟨ei, ep, es⟩ := ev
      cases es with
      | none => rfl
      | some sq => rfl

theorem tiff_step_events_all (P : FileContent → Bool)
    (hfm : ∀ l, P (FileContent.frameMetaJson l (some 2)) = true)
    (himg : ∀ n, P (FileContent.image n) = true)
    (w : TiffSequenceWriterMM) (fs : FS) (f : Nat) (ev : MDAEvent) (m : FrameMeta)
    (h : fs.events.all (fun e => P e.content) = true) :
    ((w.frameReady fs f ev m).2.1.events).all (fun e => P e.content) = true := by
  simp only [TiffSequenceWriterMM.frameReady]
  by_cases hc : (w.counter % 10 == 0) = true
  · rw [if_pos hc]
    simp [FS.write, FS.mkdirP, h, hfm, himg]
  · rw [if_neg hc]
    simp [FS.write, FS.mkdirP, h, himg]

theorem tiff_fold_events_all (P : FileContent → Bool)
    (hfm : ∀ l, P (FileContent.frameMetaJson l (some 2)) = true)
    (himg : ∀ n, P (FileContent.image n) = true)
    (frames : List (Nat × MDAEvent × FrameMeta)) (s : TiffSequenceWriterMM × FS)
    (hs : (s.2.events).all (fun e => P e.content) = true) :
    (((frames.foldl tiffStep s).2).events).all (fun e => P e.content) = true :=
  foldl_inv
    (fun s2 : TiffSequenceWriterMM × FS =>
      (s2.2.events).all (fun e => P e.content) = true)
    tiffStep
    (fun b a hb => tiff_step_events_all P hfm himg b.1 b.2 a.1 a.2.1 a.2.2 hb)
    frames s hs

theorem tiffRun_events_all (P : FileContent → Bool)
    (hseq : ∀ s, P (FileContent.seqJson s (some 2)) = true)
    (hfm : ∀ l, P (FileContent.frameMetaJson l (some 2)) = true)
    (himg : ∀ n, P (FileContent.image n) = true)
    (w0 : TiffSequenceWriterMM) (seq : MDASequence)
    (frames : List (Nat × MDAEvent × FrameMeta)) :
    ((tiffRun w0 seq frames).2.events).all (fun e => P e.content) = true := by
  unfold tiffRun TiffSequenceWriterMM.sequenceStarted
  simp only [TiffSequenceWriterMM.sequenceFinished, FS.write, List.all_cons,
    Bool.and_eq_true]
  refine ⟨hfm _, ?_⟩
  apply tiff_fold_events_all P hfm himg
  simp [FS.mkdirP, emptyFS, hseq]

/-- C4 (counterexample): the claim as stated is false.  Concrete input:
the tensorstore writer with the zarr driver and an empty backing store.
finalize_metadata persists its .zattrs attributes document with
indent none (json_dumps is called without an indent argument), so this
sidecar JSON document is not pretty-printed. -/
theorem C4_counterexample_zattrs_not_indented :
    (tsZarrW0.finalize_metadata.store.map
      (fun s2 => (s2.files.lookup ".zattrs").map (fun f => f.indent))) =
      some (some none) := by
  decide

/-- C4 (amended): the TIFF-sequence writer emits every sidecar JSON
document of a complete run pretty-printed with indent 2 (image files
carry no JSON), but the flat-tensor writer serializes its attributes
document (.zattrs) with no indentation. -/
theorem C4_sidecar_indentation (w0 : TiffSequenceWriterMM) (seq : MDASequence)
    (frames : List (Nat × MDAEvent × FrameMeta)) (w : TensorStoreWriterMM)
    (st : KVStore) :
    ((tiffRun w0 seq frames).2.events).all (fun e => indentOkB e.content) = true ∧
    (({ w with store := some st, ts_driver := "zarr" } :
        TensorStoreWriterMM).finalize_metadata.store.map
      (fun s2 => (s2.files.lookup ".zattrs").map (fun f => f.indent))) =
      some (some none) := by
  constructor
  · exact tiffRun_events_all indentOkB (fun s => rfl) (fun l => rfl)
      (fun n => rfl) w0 seq frames
  · unfold TensorStoreWriterMM.finalize_metadata tsWriteMetadata
    have hz : strStartsWith "zarr" "zarr" = true := by decide
    simp [hz, lookup_setKey_self]

theorem cleanPairs_idem (l : List (Nat × FrameMeta)) :
    (l.map (fun m => (m.1, sanitizeFrameMeta m.2))).map
        (fun m => (m.1, sanitizeFrameMeta m.2)) =
      l.map (fun m => (m.1, sanitizeFrameMeta m.2)) := by
  rw [List.map_map]
  apply List.map_congr_left
  intro a _
  simp [Function.comp, sanitizeFrameMeta_idem]

theorem dictUpdate_single_absorb {α : Type} (k : String) (v : α)
    (a : List (String × α)) :
    dictUpdate (dictUpdate a [(k, v)]) [(k, v)] = dictUpdate a [(k, v)] := by
  simp [dictUpdate, setKey_absorb]

theorem dictUpdate_pair_absorb {α : Type} (k1 k2 : String) (h : k1 ≠ k2)
    (v1 v2 : α) (a : List (String × α)) :
    dictUpdate (dictUpdate a [(k1, v1), (k2, v2)]) [(k1, v1), (k2, v2)] =
      dictUpdate a [(k1, v1), (k2, v2)] := by
  simp only [dictUpdate, List.foldl_cons, List.foldl_nil]
  rw [setKey_absorb_after k1 k2 h, setKey_absorb]


theorem tsCleanPairs_idem (l : List (Nat × FrameMeta)) :
    tsCleanPairs (tsCleanPairs l) = tsCleanPairs l :=
  cleanPairs_idem l

theorem tsWriteMetadata_absorb (drv : String) (nd : Bool)
    (c : List (Nat × FrameMeta)) (fi : List (List (String × Nat) × Nat))
    (s : KVStore) :
    tsWriteMetadata drv (tsMetadataDoc nd c fi)
        (tsWriteMetadata drv (tsMetadataDoc nd c fi) s) =
      tsWriteMetadata drv (tsMetadataDoc nd c fi) s := by
  by_cases hz : strStartsWith drv "zarr" = true
  · unfold tsWriteMetadata
    rw [if_pos hz, if_pos hz]
    simp [setKey_absorb]
  · by_cases hn : (drv == "n5") = true
    · unfold tsWriteMetadata
      rw [if_neg hz, if_neg hz, if_pos hn, if_pos hn]
      have habs : ∀ attrs : List (String × TSVal),
          dictUpdate (dictUpdate attrs (tsMetadataDoc nd c fi))
              (tsMetadataDoc nd c fi) =
            dictUpdate attrs (tsMetadataDoc nd c fi) := by
        intro attrs
        unfold tsMetadataDoc
        cases nd with
        | false =>
            simp only [Bool.false_eq_true, if_false]
            exact dictUpdate_pair_absorb _ _ (by decide) _ _ _
        | true =>
            simp only [if_true]
            exact dictUpdate_single_absorb _ _ _
      simp [lookup_setKey_self, habs, setKey_absorb]
    · unfold tsWriteMetadata
      rw [if_neg hz, if_neg hz, if_neg hn, if_neg hn]

theorem ts_finalize_idem (t : TensorStoreWriterMM) :
    t.finalize_metadata.finalize_metadata = t.finalize_metadata := by
  cases hs : t.store with
  | none =>
      have h1 : t.finalize_metadata = t := by
        unfold TensorStoreWriterMM.finalize_metadata
        simp [hs]
      rw [h1, h1]
  | some st =>
      have h1 : t.finalize_metadata = { t with
          store := some (tsWriteMetadata t.ts_driver
            (tsMetadataDoc t.nd_storage (tsCleanPairs t.frame_metadatas)
              t.frame_indices) st),
          frame_metadatas := tsCleanPairs t.frame_metadatas } := by
        unfold TensorStoreWriterMM.finalize_metadata
        simp [hs]
      rw [h1]
      unfold TensorStoreWriterMM.finalize_metadata
      simp only [tsCleanPairs_idem, tsWriteMetadata_absorb]

theorem flush_frame_metadatas (items : List (String × List FrameMeta))
    (w : OMEZarrWriterMM) :
    (flushFrameMetas items w).frame_metadatas = w.frame_metadatas := by
  induction items generalizing w with
  | nil => rfl
  | cons it rest ih =>
      obtain ⟨key, metas⟩ := it
      unfold flushFrameMetas
      cases hlk : w.position_arrays.lookup key with
      | none => simp [hlk, ih]
      | some ary => simp [hlk, ih]

theorem flush_minify (items : List (String × List FrameMeta))
    (w : OMEZarrWriterMM) :
    (flushFrameMetas items w).minify_metadata = w.minify_metadata := by
  induction items generalizing w with
  | nil => rfl
  | cons it rest ih =>
      obtain ⟨key, metas⟩ := it
      unfold flushFrameMetas
      cases hlk : w.position_arrays.lookup key with
      | none => simp [hlk, ih]
      | some ary => simp [hlk, ih]

theorem coordify_coordify (a : ZarrArray) :
    coordifyArray (coordifyArray a) = coordifyArray a := by
  unfold coordifyArray
  simp [setKey_absorb]

theorem coordify_after_frame_meta (a : ZarrArray) (v : AttrVal)
    (h : coordifyArray a = a) :
    coordifyArray { a with attrs := setKey "frame_meta" v a.attrs } =
      { a with attrs := setKey "frame_meta" v a.attrs } := by
  have hattrs : setKey "_xarray_coords" (AttrVal.coordsVal a.shape) a.attrs =
      a.attrs := congrArg ZarrArray.attrs h
  unfold coordifyArray
  have goal2 : setKey "_xarray_coords" (AttrVal.coordsVal a.shape)
      (setKey "frame_meta" v a.attrs) = setKey "frame_meta" v a.attrs := by
    conv_lhs => rw [← hattrs]
    conv_rhs => rw [← hattrs]
    exact setKey_absorb_after _ _ (by decide) _ _ _
  simp [goal2]

theorem flush_preserves_fixed (items : List (String × List FrameMeta))
    (w : OMEZarrWriterMM)
    (h : ∀ p ∈ w.position_arrays, coordifyArray p.2 = p.2) :
    ∀ p ∈ (flushFrameMetas items w).position_arrays, coordifyArray p.2 = p.2 := by
  induction items generalizing w with
  | nil => exact h
  | cons it rest ih =>
      obtain ⟨key, metas⟩ := it
      unfold flushFrameMetas
      cases hlk : w.position_arrays.lookup key with
      | none => exact ih w h
      | some ary =>
          apply ih
          intro p hp
          rcases mem_setKey _ _ _ _ hp with h1 | h1
          · rw [h1]
            exact coordify_after_frame_meta ary _ (h _ (lookup_mem _ _ _ hlk))
          · exact h p h1

theorem populate_fixed (w : OMEZarrWriterMM)
    (h : ∀ p ∈ w.position_arrays, coordifyArray p.2 = p.2) :
    w.populate_xarray_coords = w := by
  unfold OMEZarrWriterMM.populate_xarray_coords
  have hmap : w.position_arrays.map (fun p => (p.1, coordifyArray p.2)) =
      w.position_arrays := by
    apply map_eq_self_of_fixed
    intro p hp
    rw [h p hp]
  rw [hmap]

theorem populate_arrays_fixed (w : OMEZarrWriterMM) :
    ∀ p ∈ w.populate_xarray_coords.position_arrays, coordifyArray p.2 = p.2 := by
  unfold OMEZarrWriterMM.populate_xarray_coords
  intro p hp
  simp only [List.mem_map] at hp
  obtain ⟨q, _, hq⟩ := hp
  rw [← hq]
  exact coordify_coordify q.2

theorem ome_set_fm_empty (w : OMEZarrWriterMM) (h : w.frame_metadatas = []) :
    ({ w with frame_metadatas := [] } : OMEZarrWriterMM) = w := by
  cases w
  simp_all

theorem ome_finalize_idem (z : OMEZarrWriterMM) :
    z.finalize_metadata.finalize_metadata = z.finalize_metadata := by
  unfold OMEZarrWriterMM.finalize_metadata OMEZarrWriterMM.minify_zattrs_metadata
  simp only [ite_self]
  have hfm : (flushFrameMetas z.populate_xarray_coords.frame_metadatas.reverse
      { z.populate_xarray_coords with frame_metadatas := [] }).frame_metadatas =
      ([] : List (String × List FrameMeta)) := by
    rw [flush_frame_metadatas]
  have hfix : ∀ p ∈ (flushFrameMetas z.populate_xarray_coords.frame_metadatas.reverse
      { z.populate_xarray_coords with frame_metadatas := [] }).position_arrays,
      coordifyArray p.2 = p.2 := by
    apply flush_preserves_fixed
    intro p hp
    exact populate_arrays_fixed z p hp
  rw [populate_fixed _ hfix]
  rw [hfm]
  simp only [List.reverse_nil]
  rw [ome_set_fm_empty _ hfm]
  rfl

/-- C5: finalize is idempotent: for every OME-Zarr writer state and every
tensorstore writer state, a second finalize_metadata call leaves the
entire writer state — the persisted attributes and store included —
exactly as the first call left it: no frame-metadata record is duplicated
and no persisted attribute changes. -/
theorem C5_finalize_idempotent (z : OMEZarrWriterMM) (t : TensorStoreWriterMM) :
    z.finalize_metadata.finalize_metadata = z.finalize_metadata ∧
    t.finalize_metadata.finalize_metadata = t.finalize_metadata :=
  ⟨ome_finalize_idem z, ts_finalize_idem t⟩

theorem all_map_sanitized (l : List FrameMeta) :
    (l.map sanitizeFrameMeta).all frameMetaSanitized = true := by
  rw [List.all_map]
  rw [List.all_eq_true]
  intro a _
  exact frameMetaSanitized_sanitize a

theorem tiff_step_sanitized (w : TiffSequenceWriterMM) (fs : FS) (f : Nat)
    (ev : MDAEvent) (m : FrameMeta)
    (hfs : (fs.events).all (fun e => contentSanitizedB e.content) = true)
    (hbuf : (w.frame_metadata).all (fun p => frameMetaSanitized p.2) = true) :
    ((w.frameReady fs f ev m).2.1.events).all
        (fun e => contentSanitizedB e.content) = true ∧
    ((w.frameReady fs f ev m).1.frame_metadata).all
        (fun p => frameMetaSanitized p.2) = true := by
  have hbuf2 : ∀ fn, ((setKey fn (sanitizeFrameMeta m) w.frame_metadata).all
      (fun p => frameMetaSanitized p.2)) = true :=
    fun fn => all_setKey _ _ _ _ hbuf (frameMetaSanitized_sanitize m)
  constructor
  · simp only [TiffSequenceWriterMM.frameReady]
    by_cases hc : (w.counter % 10 == 0) = true
    · rw [if_pos hc]
      simp only [FS.write, FS.mkdirP, List.all_cons, Bool.and_eq_true]
      exact ⟨hbuf2 _, rfl, hfs⟩
    · rw [if_neg hc]
      simp only [FS.write, FS.mkdirP, List.all_cons, Bool.and_eq_true]
      exact ⟨rfl, hfs⟩
  · simp only [TiffSequenceWriterMM.frameReady]
    exact hbuf2 _

theorem tiff_fold_sanitized (frames : List (Nat × MDAEvent × FrameMeta))
    (s : TiffSequenceWriterMM × FS)
    (hs : (s.2.events).all (fun e => contentSanitizedB e.content) = true ∧
      (s.1.frame_metadata).all (fun p => frameMetaSanitized p.2) = true) :
    ((frames.foldl tiffStep s).2.events).all
        (fun e => contentSanitizedB e.content) = true ∧
    ((frames.foldl tiffStep s).1.frame_metadata).all
        (fun p => frameMetaSanitized p.2) = true :=
  foldl_inv
    (fun s2 : TiffSequenceWriterMM × FS =>
      (s2.2.events).all (fun e => contentSanitizedB e.content) = true ∧
      (s2.1.frame_metadata).all (fun p => frameMetaSanitized p.2) = true)
    tiffStep
    (fun b a hb =>
      tiff_step_sanitized b.1 b.2 a.1 a.2.1 a.2.2 hb.1 hb.2)
    frames s hs

theorem tiffRun_sanitized (w0 : TiffSequenceWriterMM) (seq : MDASequence)
    (frames : List (Nat × MDAEvent × FrameMeta)) :
    ((tiffRun w0 seq frames).2.events).all
        (fun e => contentSanitizedB e.content) = true := by
  unfold tiffRun TiffSequenceWriterMM.sequenceStarted
  simp only [TiffSequenceWriterMM.sequenceFinished, FS.write, List.all_cons,
    Bool.and_eq_true]
  have hstart :
      (((emptyFS.mkdirP w0.directory).write w0.seq_meta_file
          (FileContent.seqJson (popMMHandlerSeq seq) (some 2))).events).all
          (fun e => contentSanitizedB e.content) = true := by
    simp [FS.write, FS.mkdirP, emptyFS, contentSanitizedB,
      seqSanitized_popMMHandlerSeq]
  constructor
  · show ((frames.foldl tiffStep _).1.frame_metadata).all
        (fun p => frameMetaSanitized p.2) = true
    refine (tiff_fold_sanitized frames _ ⟨hstart, ?_⟩).2
    rfl
  · refine (tiff_fold_sanitized frames _ ⟨hstart, ?_⟩).1
    rfl

theorem allFlatten {α : Type} (p : α → Bool) (ls : List (List α)) :
    ls.flatten.all p = ls.all (fun l => l.all p) := by
  induction ls with
  | nil => rfl
  | cons a t ih => simp [List.all_append, ih]

theorem allMap {α β : Type} (f : α → β) (p : β → Bool) (l : List α) :
    (l.map f).all p = l.all (fun a => p (f a)) := by
  induction l with
  | nil => rfl
  | cons a t ih => simp [ih]

theorem ome_allAttrVals_of (w : OMEZarrWriterMM)
    (h1 : (w.group_attrs).all (fun p => attrValSanitized p.2) = true)
    (h2 : (w.position_arrays).all
        (fun p => (p.2.attrs).all (fun q => attrValSanitized q.2)) = true) :
    (w.allAttrVals).all attrValSanitized = true := by
  unfold OMEZarrWriterMM.allAttrVals
  rw [List.all_append, Bool.and_eq_true, allMap, allFlatten, allMap]
  refine ⟨h1, ?_⟩
  rw [List.all_eq_true] at h2 ⊢
  intro p hp
  rw [allMap]
  exact h2 p hp

theorem ome_frameReady_san (w : OMEZarrWriterMM) (key : String)
    (sizes : List (String × Nat)) (m : FrameMeta)
    (h1 : (w.group_attrs).all (fun p => attrValSanitized p.2) = true)
    (h2 : (w.position_arrays).all
        (fun p => (p.2.attrs).all (fun q => attrValSanitized q.2)) = true) :
    ((w.frameReadyModel key sizes m).group_attrs).all
        (fun p => attrValSanitized p.2) = true ∧
    ((w.frameReadyModel key sizes m).position_arrays).all
        (fun p => (p.2.attrs).all (fun q => attrValSanitized q.2)) = true := by
  unfold OMEZarrWriterMM.frameReadyModel
  cases hlk : w.position_arrays.lookup key with
  | some ary =>
      simp only [hlk]
      exact ⟨h1, h2⟩
  | none =>
      simp only [hlk]
      unfold OMEZarrWriterMM.new_array
      constructor
      · exact all_setKey _ _ _ _ h1 rfl
      · apply all_setKey _ _ _ _ h2
        cases hcs : w.current_sequence with
        | none => simp [setKey, attrValSanitized]
        | some seq =>
            simp [setKey, attrValSanitized, seqSanitized_popMMHandlerSeq]

theorem populate_san (w : OMEZarrWriterMM)
    (h2 : (w.position_arrays).all
        (fun p => (p.2.attrs).all (fun q => attrValSanitized q.2)) = true) :
    ((w.populate_xarray_coords.position_arrays).all
        (fun p => (p.2.attrs).all (fun q => attrValSanitized q.2))) = true := by
  unfold OMEZarrWriterMM.populate_xarray_coords coordifyArray
  rw [List.all_map]
  rw [List.all_eq_true] at h2 ⊢
  intro p hp
  exact all_setKey _ _ _ _ (h2 p hp) rfl

theorem flush_san (items : List (String × List FrameMeta)) (w : OMEZarrWriterMM)
    (h2 : (w.position_arrays).all
        (fun p => (p.2.attrs).all (fun q => attrValSanitized q.2)) = true) :
    (((flushFrameMetas items w).position_arrays).all
        (fun p => (p.2.attrs).all (fun q => attrValSanitized q.2))) = true := by
  induction items generalizing w with
  | nil => exact h2
  | cons it rest ih =>
      obtain ⟨key, metas⟩ := it
      unfold flushFrameMetas
      cases hlk : w.position_arrays.lookup key with
      | none => exact ih w h2
      | some ary =>
          apply ih
          apply all_setKey _ _ _ _ h2
          apply all_setKey
          · exact List.all_eq_true.mp h2 _ (lookup_mem _ _ _ hlk)
          · exact all_map_sanitized metas

theorem flush_group (items : List (String × List FrameMeta))
    (w : OMEZarrWriterMM) :
    (flushFrameMetas items w).group_attrs = w.group_attrs := by
  induction items generalizing w with
  | nil => rfl
  | cons it rest ih =>
      obtain ⟨key, metas⟩ := it
      unfold flushFrameMetas
      cases hlk : w.position_arrays.lookup key with
      | none => simp [hlk, ih]
      | some ary => simp [hlk, ih]

theorem ome_finalize_san (w : OMEZarrWriterMM)
    (h1 : (w.group_attrs).all (fun p => attrValSanitized p.2) = true)
    (h2 : (w.position_arrays).all
        (fun p => (p.2.attrs).all (fun q => attrValSanitized q.2)) = true) :
    ((w.finalize_metadata.group_attrs).all
        (fun p => attrValSanitized p.2)) = true ∧
    ((w.finalize_metadata.position_arrays).all
        (fun p => (p.2.attrs).all (fun q => attrValSanitized q.2))) = true := by
  unfold OMEZarrWriterMM.finalize_metadata OMEZarrWriterMM.minify_zattrs_metadata
  simp only [ite_self]
  constructor
  · rw [flush_group]
    exact h1
  · apply flush_san
    exact populate_san w h2

theorem omeRun_sanitized (w0 : OMEZarrWriterMM) (seq : MDASequence)
    (inputs : List (String × List (String × Nat) × FrameMeta)) :
    ((omeRun w0 seq inputs).allAttrVals).all attrValSanitized = true := by
  unfold omeRun
  have hfold := foldl_inv
    (fun w : OMEZarrWriterMM =>
      (w.group_attrs).all (fun p => attrValSanitized p.2) = true ∧
      (w.position_arrays).all
        (fun p => (p.2.attrs).all (fun q => attrValSanitized q.2)) = true)
    (fun w i => w.frameReadyModel i.1 i.2.1 i.2.2)
    (fun b a hb => ome_frameReady_san b a.1 a.2.1 a.2.2 hb.1 hb.2)
    inputs (w0.sequenceStartedModel seq) ⟨rfl, rfl⟩
  have hfin := ome_finalize_san _ hfold.1 hfold.2
  exact ome_allAttrVals_of _ hfin.1 hfin.2

theorem dictUpdate_all {α : Type} (p : String × α → Bool)
    (d upd : List (String × α)) (hd : d.all p = true) (hu : upd.all p = true) :
    (dictUpdate d upd).all p = true := by
  induction upd generalizing d with
  | nil => exact hd
  | cons a t ih =>
      simp only [List.all_cons, Bool.and_eq_true] at hu
      exact ih (setKey a.1 a.2 d) (all_setKey _ _ _ _ hd hu.1) hu.2

theorem cleanPairs_frames_san (c0 : List (Nat × FrameMeta)) :
    (((tsCleanPairs c0).map (fun m => m.2)).all frameMetaSanitized) = true := by
  unfold tsCleanPairs
  rw [List.map_map, allMap]
  rw [List.all_eq_true]
  intro a _
  exact frameMetaSanitized_sanitize a.2

theorem tsMetadataDoc_san (nd : Bool) (c0 : List (Nat × FrameMeta))
    (fi : List (List (String × Nat) × Nat)) :
    ((tsMetadataDoc nd (tsCleanPairs c0) fi).all
        (fun p => tsValSanitized p.2)) = true := by
  unfold tsMetadataDoc
  cases nd with
  | true =>
      simp only [if_true]
      simp [tsValSanitized, cleanPairs_frames_san]
  | false =>
      simp only [Bool.false_eq_true, if_false]
      simp [tsValSanitized, cleanPairs_frames_san]

theorem tsWriteMetadata_san (drv : String) (nd : Bool)
    (c0 : List (Nat × FrameMeta)) (fi : List (List (String × Nat) × Nat))
    (st : KVStore)
    (h : (st.files).all
        (fun f => (f.2.doc).all (fun p => tsValSanitized p.2)) = true) :
    ((tsWriteMetadata drv (tsMetadataDoc nd (tsCleanPairs c0) fi) st).files).all
        (fun f => (f.2.doc).all (fun p => tsValSanitized p.2)) = true := by
  unfold tsWriteMetadata
  by_cases hz : strStartsWith drv "zarr" = true
  · rw [if_pos hz]
    exact all_setKey _ _ _ _ h (tsMetadataDoc_san nd c0 fi)
  · by_cases hn : (drv == "n5") = true
    · rw [if_neg hz, if_pos hn]
      cases hlk : st.files.lookup "attributes.json" with
      | none =>
          simp only [hlk, Option.map_none', Option.getD_none]
          exact all_setKey _ _ _ _ h
            (dictUpdate_all _ _ _ rfl (tsMetadataDoc_san nd c0 fi))
      | some f =>
          simp only [hlk, Option.map_some', Option.getD_some]
          apply all_setKey _ _ _ _ h
          apply dictUpdate_all _ _ _ ?_ (tsMetadataDoc_san nd c0 fi)
          exact List.all_eq_true.mp h _ (lookup_mem _ _ _ hlk)
    · rw [if_neg hz, if_neg hn]
      exact h

theorem ts_frameReady_storeSan (w : TensorStoreWriterMM) (tok : Nat)
    (ei : List (String × Nat)) (m : FrameMeta)
    (h : storeSanitized w.store = true) :
    storeSanitized (w.frameReadyModel tok ei m).store = true := by
  unfold TensorStoreWriterMM.frameReadyModel
  cases hs : w.store with
  | none => simp [hs, storeSanitized]
  | some s =>
      rw [hs] at h
      simp only [hs, Option.getD_some]
      simpa [storeSanitized] using h

theorem ts_finalize_storeSan (w : TensorStoreWriterMM)
    (h : storeSanitized w.store = true) :
    storeSanitized w.finalize_metadata.store = true := by
  unfold TensorStoreWriterMM.finalize_metadata
  cases hs : w.store with
  | none =>
      simp only [hs]
      rw [hs] at h
      exact h
  | some st =>
      simp only [hs]
      rw [hs] at h
      simpa [storeSanitized] using
        tsWriteMetadata_san w.ts_driver w.nd_storage w.frame_metadatas
          w.frame_indices st (by simpa [storeSanitized] using h)

theorem tsRun_sanitized (w0 : TensorStoreWriterMM) (nd : Bool)
    (inputs : List (Nat × List (String × Nat) × FrameMeta)) :
    storeSanitized (tsRun w0 nd inputs).store = true := by
  unfold tsRun
  apply ts_finalize_storeSan
  exact foldl_inv (fun w : TensorStoreWriterMM => storeSanitized w.store = true)
    (fun w i => w.frameReadyModel i.1 i.2.1 i.2.2)
    (fun b a hb => ts_frameReady_storeSan b a.1 a.2.1 a.2.2 hb)
    inputs (w0.sequenceStartedModel nd) rfl

/-- C3: for every writer variant in src/ and every complete run, every
persisted metadata record has the "mm_handler" key absent from the
embedded sequence's metadata mapping: every sidecar document written over
a TIFF-sequence run (the serialized sequence description and every
serialized frame-metadata record), every group- and array-level attribute
persisted over an OME-Zarr run, and every document in the flat-tensor
store after a tensorstore run. -/
theorem C3_persisted_metadata_sanitized (tw : TiffSequenceWriterMM)
    (tseq : MDASequence) (tframes : List (Nat × MDAEvent × FrameMeta))
    (zw : OMEZarrWriterMM) (zseq : MDASequence)
    (zinputs : List (String × List (String × Nat) × FrameMeta))
    (sw : TensorStoreWriterMM) (nd : Bool)
    (sinputs : List (Nat × List (String × Nat) × FrameMeta)) :
    ((tiffRun tw tseq tframes).2.events).all
        (fun e => contentSanitizedB e.content) = true ∧
    ((omeRun zw zseq zinputs).allAttrVals).all attrValSanitized = true ∧
    storeSanitized (tsRun sw nd sinputs).store = true :=
  ⟨tiffRun_sanitized tw tseq tframes, omeRun_sanitized zw zseq zinputs,
   tsRun_sanitized sw nd sinputs⟩
